import Mathlib

/-!
Verification of the chat-relay server in `server.py` (class `ChatServer`).

The embedding models text as `List Char` and sockets as natural-number sink
identifiers.  The registry `self.clients` (a Python dict from username to
socket) is an association list with unique keys kept in insertion order, the
order a Python dict iterates in.  Writes to a socket are modelled by a list of
`(sink, line)` pairs the operation emits; a set `dead` of sink identifiers
marks sockets whose `sendall` raises, which only matters where the source
catches that exception (per-recipient in `broadcast`, the target send in
`handle_dm`).  The model covers executions in which writes to the handling
connection's own socket succeed; theorems about responses to the sender carry
the corresponding `sock ∉ dead` hypothesis.
-/

set_option autoImplicit false

namespace ChatServer

/-- Text is a list of characters. -/
abbrev Str := List Char

/-- String-literal coercion into the character-list model. -/
def str (s : String) : Str := s.data

/-- The registry `self.clients`: username-to-socket entries in insertion
order, keys unique (a Python dict). -/
abbrev Registry := List (Str × Nat)

/-- Python `str.isspace()`, the character test `str.strip()` strips by
(CPython's `Py_UNICODE_ISSPACE`): `\t \n \x0b \x0c \r`, the file/group/
record/unit separators `\x1c`-`\x1f`, the space, `\x85` (NEL), `\xa0`
(NBSP), and the Unicode space/line/paragraph separators. -/
def isPySpace (c : Char) : Bool :=
  let n := c.toNat
  (0x09 ≤ n && n ≤ 0x0D) || (0x1C ≤ n && n ≤ 0x20) || n = 0x85 || n = 0xA0 ||
  n = 0x1680 || (0x2000 ≤ n && n ≤ 0x200A) || n = 0x2028 || n = 0x2029 ||
  n = 0x202F || n = 0x205F || n = 0x3000

/-- Python `s.strip()`: remove leading and trailing whitespace. -/
def pyStrip (s : Str) : Str :=
  ((s.dropWhile isPySpace).reverse.dropWhile isPySpace).reverse

/-- Python `s.split(sep, 1)`: the text before the first separator, and
`some` remainder after it when a separator occurs (`none` when it does not,
in which case Python returns the one-element list `[s]`). -/
def pySplit1 (sep : Char) : Str → Str × Option Str
  | [] => ([], none)
  | c :: rest =>
    if c = sep then ([], some rest)
    else
      let p := pySplit1 sep rest
      (c :: p.1, p.2)

/-- Python `s.upper()` on the ASCII range (command verbs are ASCII). -/
def pyUpper (s : Str) : Str :=
  s.map fun c => if 'a' ≤ c ∧ c ≤ 'z' then Char.ofNat (c.toNat - 32) else c

/-- Dict lookup `self.clients.get(u)` / `u in self.clients`: the value of the
first (with unique keys, only) entry whose key is `u`. -/
def lookup (u : Str) : Registry → Option Nat
  | [] => none
  | e :: rest => if e.1 = u then some e.2 else lookup u rest

/-- A UTF-8 continuation byte (`0x80..0xBF`). -/
def contByte (b : Nat) : Bool := 0x80 ≤ b && b < 0xC0

/-- Python `bytes.decode('utf-8')`: strict UTF-8 decoding of a whole chunk,
`none` exactly when `UnicodeDecodeError` is raised (invalid lead byte,
truncated sequence, overlong form, surrogate, or out-of-range scalar). -/
def decodeUtf8 : List Nat → Option (List Char)
  | [] => some []
  | b :: rest =>
    if b < 0x80 then
      (decodeUtf8 rest).map (Char.ofNat b :: ·)
    else if b < 0xC2 then none
    else if b < 0xE0 then
      match rest with
      | b1 :: r =>
        if contByte b1 then
          (decodeUtf8 r).map (Char.ofNat ((b - 0xC0) * 64 + (b1 - 0x80)) :: ·)
        else none
      | [] => none
    else if b < 0xF0 then
      match rest with
      | b1 :: b2 :: r =>
        if (if b = 0xE0 then decide (0xA0 ≤ b1) && decide (b1 < 0xC0)
            else if b = 0xED then decide (0x80 ≤ b1) && decide (b1 < 0xA0)
            else contByte b1) && contByte b2 then
          (decodeUtf8 r).map
            (Char.ofNat ((b - 0xE0) * 4096 + (b1 - 0x80) * 64 + (b2 - 0x80)) :: ·)
        else none
      | _ => none
    else if b < 0xF5 then
      match rest with
      | b1 :: b2 :: b3 :: r =>
        if (if b = 0xF0 then decide (0x90 ≤ b1) && decide (b1 < 0xC0)
            else if b = 0xF4 then decide (0x80 ≤ b1) && decide (b1 < 0x90)
            else contByte b1) && contByte b2 && contByte b3 then
          (decodeUtf8 r).map
            (Char.ofNat ((b - 0xF0) * 262144 + (b1 - 0x80) * 4096
              + (b2 - 0x80) * 64 + (b3 - 0x80)) :: ·)
        else none
      | _ => none
    else none

/-- The line-framing loop `while '\n' in buffer: line, buffer =
buffer.split('\n', 1)`: the complete lines (text before each newline, newline
stripped) and the trailing text after the last newline, kept as the new
buffer. -/
def extractLines : Str → List Str × Str
  | [] => ([], [])
  | c :: rest =>
    if c = '\n' then ([] :: (extractLines rest).1, (extractLines rest).2)
    else
      match extractLines rest with
      | ([], b) => ([], c :: b)
      | (l :: ls, b) => ((c :: l) :: ls, b)

/-- One iteration of the receive loop on a chunk `data`: `buffer +=
data.decode('utf-8')` with the whole chunk skipped on `UnicodeDecodeError`
(`continue`), then the line-framing loop.  Returns the new buffer and the
complete lines produced. -/
def recvChunk (buffer : Str) (data : List Nat) : Str × List Str :=
  match decodeUtf8 data with
  | none => (buffer, [])
  | some text =>
    let p := extractLines (buffer ++ text)
    (p.2, p.1)

/-- Feeding a sequence of received chunks through the framer, accumulating
the complete lines in order. -/
def feedChunks (buffer : Str) : List (List Nat) → Str × List Str
  | [] => (buffer, [])
  | d :: rest =>
    let p := recvChunk buffer d
    let q := feedChunks p.1 rest
    (q.1, p.2 ++ q.2)

/-- The `for user, socket in self.clients.items()` loop body of `broadcast`:
for each entry other than the excluded username, try to send `message + "\n"`
and on failure collect the username in `dead_clients`.  Returns the emitted
sends and the collected dead usernames, in iteration order.  In Python
`user != exclude_user` compares against `None` when no user is excluded,
which is true for every username. -/
def broadcastLoop (dead : List Nat) (message : Str) (exclude : Option Str) :
    Registry → List (Nat × Str) × List Str
  | [] => ([], [])
  | e :: rest =>
    let p := broadcastLoop dead message exclude rest
    if some e.1 ≠ exclude then
      if e.2 ∈ dead then (p.1, e.1 :: p.2)
      else ((e.2, message ++ str "\n") :: p.1, p.2)
    else p

/-- The cleanup loop `for user in dead_clients: del self.clients[user]`:
with unique keys, deleting each collected username removes exactly the
entries whose key was collected. -/
def delKeys (ks : List Str) (clients : Registry) : Registry :=
  clients.filter fun e => decide (e.1 ∉ ks)

/-- `ChatServer.broadcast`: under the lock, send `message + "\n"` to every
registered session except `exclude_user`, collecting sessions whose send
fails and removing them from the registry after the iteration.  Returns the
updated registry and the successful sends. -/
def broadcast (clients : Registry) (dead : List Nat) (message : Str)
    (exclude : Option Str) : Registry × List (Nat × Str) :=
  let p := broadcastLoop dead message exclude clients
  (delKeys p.2 clients, p.1)

/-- `ChatServer.handle_dm`: split the DM argument on the first space into
target and message; with fewer than two parts reply with the usage error;
otherwise look the target up and send `DM <sender> <message>` to it
(failure swallowed), or reply `ERR user-not-found` when absent. -/
def handle_dm (sender : Str) (args : Str) (senderSock : Nat)
    (clients : Registry) (dead : List Nat) : List (Nat × Str) :=
  match pySplit1 ' ' args with
  | (_, none) => [(senderSock, str "ERR usage: DM <username> <message>\n")]
  | (target, some message) =>
    match lookup target clients with
    | some tsock =>
      if tsock ∈ dead then []
      else [(tsock, str "DM " ++ sender ++ str " " ++ message ++ str "\n")]
    | none => [(senderSock, str "ERR user-not-found\n")]

/-- The keys of the registry in order, `self.clients.keys()`. -/
def keys (clients : Registry) : List Str := clients.map Prod.fst

/-- Python `", ".join(names)`. -/
def joinCommaSpace : List Str → Str
  | [] => []
  | [u] => u
  | u :: v :: rest => u ++ str ", " ++ joinCommaSpace (v :: rest)

/-- The per-command dispatch of `handle_client` (the body under
`parts = command.split(' ', 1)`), for one stripped, non-empty command line.
`username` is this connection's state (`None` before LOGIN), `sock` its
socket.  Returns the updated registry, the updated connection state, and the
sends emitted. -/
def processCommand (clients : Registry) (dead : List Nat) (sock : Nat)
    (username : Option Str) (command : Str) :
    Registry × Option Str × List (Nat × Str) :=
  let parts := pySplit1 ' ' command
  let cmd := pyUpper parts.1
  let arg := parts.2.getD []
  match username with
  | none =>
    if cmd = str "LOGIN" then
      if arg = [] then (clients, none, [(sock, str "ERR invalid-username\n")])
      else
        let nu := pyStrip arg
        if nu.contains ' ' ∨ nu.length < 1 then
          (clients, none, [(sock, str "ERR invalid-username\n")])
        else
          match lookup nu clients with
          | some _ => (clients, none, [(sock, str "ERR username-taken\n")])
          | none => (clients ++ [(nu, sock)], some nu, [(sock, str "OK\n")])
    else (clients, none, [(sock, str "ERR login-required\n")])
  | some u =>
    if cmd = str "MSG" then
      if arg = [] then (clients, some u, [])
      else
        let p := broadcast clients dead (str "MSG " ++ u ++ str " " ++ arg) (some u)
        (p.1, some u, p.2)
    else if cmd = str "WHO" then
      (clients, some u, [(sock, str "USERS " ++ joinCommaSpace (keys clients) ++ str "\n")])
    else if cmd = str "PING" then
      (clients, some u, [(sock, str "PONG\n")])
    else if cmd = str "DM" then
      (clients, some u, handle_dm u arg sock clients dead)
    else
      (clients, some u, [(sock, str "ERR unknown-command\n")])

/-- Processing one framed line: `command = line.strip()`, an empty command is
silently skipped, otherwise dispatch. -/
def processLine (clients : Registry) (dead : List Nat) (sock : Nat)
    (username : Option Str) (line : Str) :
    Registry × Option Str × List (Nat × Str) :=
  let command := pyStrip line
  if command = [] then (clients, username, [])
  else processCommand clients dead sock username command

/-- `ChatServer.disconnect_user`: remove the username from the registry when
present, then broadcast `INFO <username> disconnected` with no exclusion. -/
def disconnect_user (username : Str) (clients : Registry) (dead : List Nat) :
    Registry × List (Nat × Str) :=
  broadcast (clients.filter fun e => decide (e.1 ≠ username)) dead
    (str "INFO " ++ username ++ str " disconnected") none

/-- The `finally` block of `handle_client` (before the best-effort socket
close): run `disconnect_user` when the connection had authenticated,
otherwise leave the registry untouched and emit nothing. -/
def teardown (username : Option Str) (clients : Registry) (dead : List Nat) :
    Registry × List (Nat × Str) :=
  match username with
  | some u => disconnect_user u clients dead
  | none => (clients, [])

/-- Uniqueness invariant of the registry: usernames (dict keys) are unique. -/
def keysNodup (clients : Registry) : Prop := (keys clients).Nodup

/-- Distinctness of the registered sinks: each live connection registers its
own socket at most once. -/
def sinksNodup (clients : Registry) : Prop := (clients.map Prod.snd).Nodup

/-- Every registered username is free of the ASCII space character (the
LOGIN validation guarantees this for every inserted name). -/
def validKeys (clients : Registry) : Prop :=
  ∀ e ∈ clients, e.1.contains ' ' = false

end ChatServer

namespace ChatServer

theorem lookup_eq_none_iff (u : Str) (l : Registry) :
    lookup u l = none ↔ u ∉ keys l := by
  induction l with
  | nil => simp [lookup, keys]
  | cons e rest ih =>
    by_cases h : e.1 = u
    · simp [lookup, h, keys]
    · simp [lookup, h, keys, ih, Ne.symm h]

theorem lookup_eq_none_of_all_ne (u : Str) (l : Registry)
    (h : ∀ e ∈ l, e.1 ≠ u) : lookup u l = none := by
  rw [lookup_eq_none_iff]
  simp only [keys, List.mem_map]
  rintro ⟨e, he, rfl⟩
  exact h e he rfl

theorem keysNodup_filter (p : Str × Nat → Bool) (l : Registry)
    (hk : keysNodup l) : keysNodup (l.filter p) :=
  ((List.filter_sublist l).map Prod.fst).nodup hk

theorem broadcastLoop_fst (dead : List Nat) (msg : Str) (excl : Option Str)
    (l : Registry) :
    (broadcastLoop dead msg excl l).1 =
      (l.filter fun e => decide (some e.1 ≠ excl) && decide (e.2 ∉ dead)).map
        fun e => (e.2, msg ++ str "\n") := by
  induction l with
  | nil => rfl
  | cons e rest ih =>
    by_cases hx : some e.1 ≠ excl
    · by_cases hd : e.2 ∈ dead
      · simp [broadcastLoop, hx, hd, List.filter_cons, ih]
      · simp [broadcastLoop, hx, hd, List.filter_cons, ih]
    · simp [broadcastLoop, hx, List.filter_cons, ih]

theorem broadcastLoop_snd (dead : List Nat) (msg : Str) (excl : Option Str)
    (l : Registry) :
    (broadcastLoop dead msg excl l).2 =
      (l.filter fun e => decide (some e.1 ≠ excl) && decide (e.2 ∈ dead)).map
        Prod.fst := by
  induction l with
  | nil => rfl
  | cons e rest ih =>
    by_cases hx : some e.1 ≠ excl
    · by_cases hd : e.2 ∈ dead
      · simp [broadcastLoop, hx, hd, List.filter_cons, ih]
      · simp [broadcastLoop, hx, hd, List.filter_cons, ih]
    · simp [broadcastLoop, hx, List.filter_cons, ih]

theorem entry_eq_of_keysNodup {l : Registry} (hk : keysNodup l)
    {e f : Str × Nat} (he : e ∈ l) (hf : f ∈ l) (h : e.1 = f.1) : e = f :=
  List.inj_on_of_nodup_map hk he hf h

theorem broadcast_eq (l : Registry) (dead : List Nat) (msg : Str)
    (excl : Option Str) (hk : keysNodup l) :
    broadcast l dead msg excl =
      (l.filter fun e => !(decide (some e.1 ≠ excl) && decide (e.2 ∈ dead)),
       (l.filter fun e => decide (some e.1 ≠ excl) && decide (e.2 ∉ dead)).map
         fun e => (e.2, msg ++ str "\n")) := by
  simp only [broadcast, delKeys]
  rw [broadcastLoop_fst, broadcastLoop_snd]
  refine Prod.ext ?_ rfl
  apply List.filter_congr
  intro e he
  simp only [← decide_not, ← Bool.decide_and, decide_eq_decide]
  constructor
  · intro hnot
    intro hboth
    apply hnot
    simp only [List.mem_map, List.mem_filter]
    exact ⟨e, ⟨he, by simp [hboth.1, hboth.2]⟩, rfl⟩
  · intro hnot hmem
    simp only [List.mem_map, List.mem_filter] at hmem
    obtain ⟨f, ⟨hfl, hfp⟩, hfe⟩ := hmem
    obtain rfl := entry_eq_of_keysNodup hk hfl he hfe
    simp only [Bool.and_eq_true, decide_eq_true_eq] at hfp
    exact hnot hfp

theorem pySplit1_append (sep : Char) (p rest : Str) (hp : sep ∉ p) :
    pySplit1 sep (p ++ sep :: rest) = (p, some rest) := by
  induction p with
  | nil => simp [pySplit1]
  | cons c q ih =>
    simp only [List.mem_cons, not_or] at hp
    simp [pySplit1, Ne.symm hp.1, ih hp.2]

theorem pySplit1_no_sep (sep : Char) (p : Str) (hp : sep ∉ p) :
    pySplit1 sep p = (p, none) := by
  induction p with
  | nil => rfl
  | cons c q ih =>
    simp only [List.mem_cons, not_or] at hp
    simp [pySplit1, Ne.symm hp.1, ih hp.2]

theorem extractLines_append (s t : Str) :
    extractLines (s ++ t) =
      ((extractLines s).1 ++ (extractLines ((extractLines s).2 ++ t)).1,
       (extractLines ((extractLines s).2 ++ t)).2) := by
  induction s with
  | nil => simp [extractLines]
  | cons c s ih =>
    by_cases hc : c = '\n'
    · subst hc
      simp [extractLines, ih]
    · rcases hs : extractLines s with ⟨ls, b⟩
      rcases ls with _ | ⟨l, ls'⟩
      · rcases hbt : extractLines (b ++ t) with ⟨ls2, b2⟩
        rcases ls2 with _ | ⟨l2, ls2'⟩ <;>
          simp [extractLines, hc, ih, hs, hbt]
      · simp [extractLines, hc, ih, hs]

theorem extractLines_eq_self (s : Str) (h : '\n' ∉ s) : extractLines s = ([], s) := by
  induction s with
  | nil => rfl
  | cons c rest ih =>
    simp only [List.mem_cons, not_or] at h
    simp [extractLines, Ne.symm h.1, ih h.2]

theorem extractLines_snd_no_newline (s : Str) : '\n' ∉ (extractLines s).2 := by
  induction s with
  | nil => simp [extractLines]
  | cons c rest ih =>
    by_cases hc : c = '\n'
    · simpa [extractLines, hc] using ih
    · rcases hs : extractLines rest with ⟨ls, b⟩
      rcases ls with _ | ⟨l, ls'⟩ <;> rw [hs] at ih <;>
        simp_all [extractLines, hc, Ne.symm hc]

theorem pyUpper_LOGIN : pyUpper (str "LOGIN") = str "LOGIN" := by decide

theorem pySplit1_LOGIN (arg : Str) :
    pySplit1 ' ' (str "LOGIN " ++ arg) = (str "LOGIN", some arg) :=
  pySplit1_append ' ' (str "LOGIN") arg (by decide)

theorem login_invalid (clients : Registry) (dead : List Nat) (sock : Nat)
    (arg : Str)
    (h : arg = [] ∨ pyStrip arg = [] ∨ (pyStrip arg).contains ' ' = true) :
    processCommand clients dead sock none (str "LOGIN " ++ arg) =
      (clients, none, [(sock, str "ERR invalid-username\n")]) := by
  by_cases h1 : arg = []
  · subst h1
    have hsp : pySplit1 ' ' (str "LOGIN ") = (str "LOGIN", some []) := by decide
    simp [processCommand, hsp, pyUpper_LOGIN]
  · rcases h with h | h | h
    · exact absurd h h1
    · simp [processCommand, pySplit1_LOGIN, h1, h, pyUpper_LOGIN]
    · have h2 : ' ' ∈ pyStrip arg := by simpa using h
      simp [processCommand, pySplit1_LOGIN, h1, h2, pyUpper_LOGIN]

theorem login_taken (clients : Registry) (dead : List Nat) (sock : Nat)
    (arg u : Str) (s : Nat) (h1 : arg ≠ []) (hstrip : pyStrip arg = u)
    (h2 : u.contains ' ' = false) (h3 : u ≠ [])
    (hl : lookup u clients = some s) :
    processCommand clients dead sock none (str "LOGIN " ++ arg) =
      (clients, none, [(sock, str "ERR username-taken\n")]) := by
  have h2' : ' ' ∉ u := by simpa using h2
  simp [processCommand, pySplit1_LOGIN, h1, hstrip, h2', h3, hl, pyUpper_LOGIN]

theorem login_ok (clients : Registry) (dead : List Nat) (sock : Nat)
    (arg u : Str) (h1 : arg ≠ []) (hstrip : pyStrip arg = u)
    (h2 : u.contains ' ' = false) (h3 : u ≠ [])
    (hl : lookup u clients = none) :
    processCommand clients dead sock none (str "LOGIN " ++ arg) =
      (clients ++ [(u, sock)], some u, [(sock, str "OK\n")]) := by
  have h2' : ' ' ∉ u := by simpa using h2
  simp [processCommand, pySplit1_LOGIN, h1, hstrip, h2', h3, hl, pyUpper_LOGIN]

theorem msg_dispatch (clients : Registry) (dead : List Nat) (sock : Nat)
    (u arg : Str) (h : arg ≠ []) :
    processCommand clients dead sock (some u) (str "MSG " ++ arg) =
      ((broadcast clients dead (str "MSG " ++ u ++ str " " ++ arg) (some u)).1,
       some u,
       (broadcast clients dead (str "MSG " ++ u ++ str " " ++ arg) (some u)).2) := by
  have hs : pySplit1 ' ' (str "MSG " ++ arg) = (str "MSG", some arg) :=
    pySplit1_append ' ' (str "MSG") arg (by decide)
  have e1 : pyUpper (str "MSG") = str "MSG" := by decide
  have e2 : str "MSG" ≠ str "LOGIN" := by decide
  simp [processCommand, hs, h, e1, e2]

theorem msg_empty (clients : Registry) (dead : List Nat) (sock : Nat)
    (u : Str) :
    processCommand clients dead sock (some u) (str "MSG") =
      (clients, some u, []) := by
  simp [processCommand, pySplit1, pyUpper, str]

theorem dm_dispatch (clients : Registry) (dead : List Nat) (sock : Nat)
    (u args : Str) :
    processCommand clients dead sock (some u) (str "DM " ++ args) =
      (clients, some u, handle_dm u args sock clients dead) := by
  have hs : pySplit1 ' ' (str "DM " ++ args) = (str "DM", some args) :=
    pySplit1_append ' ' (str "DM") args (by decide)
  have e1 : pyUpper (str "DM") = str "DM" := by decide
  have e2 : str "DM" ≠ str "MSG" := by decide
  have e3 : str "DM" ≠ str "WHO" := by decide
  have e4 : str "DM" ≠ str "PING" := by decide
  simp [processCommand, hs, e1, e2, e3, e4]

theorem dm_usage (sender args : Str) (sock : Nat) (clients : Registry)
    (dead : List Nat) (h : ' ' ∉ args) :
    handle_dm sender args sock clients dead =
      [(sock, str "ERR usage: DM <username> <message>\n")] := by
  rw [handle_dm, pySplit1_no_sep ' ' args h]

theorem pySplit1_target (t m : Str) (ht : ' ' ∉ t) :
    pySplit1 ' ' (t ++ str " " ++ m) = (t, some m) := by
  rw [List.append_assoc]
  exact pySplit1_append ' ' t m ht

theorem dm_found (sender t m : Str) (sock ts : Nat) (clients : Registry)
    (dead : List Nat) (ht : ' ' ∉ t) (hl : lookup t clients = some ts)
    (hd : ts ∉ dead) :
    handle_dm sender (t ++ str " " ++ m) sock clients dead =
      [(ts, str "DM " ++ sender ++ str " " ++ m ++ str "\n")] := by
  rw [handle_dm, pySplit1_target t m ht]
  simp [hl, hd]

theorem dm_found_dead (sender t m : Str) (sock ts : Nat) (clients : Registry)
    (dead : List Nat) (ht : ' ' ∉ t) (hl : lookup t clients = some ts)
    (hd : ts ∈ dead) :
    handle_dm sender (t ++ str " " ++ m) sock clients dead = [] := by
  rw [handle_dm, pySplit1_target t m ht]
  simp [hl, hd]

theorem dm_not_found (sender t m : Str) (sock : Nat) (clients : Registry)
    (dead : List Nat) (ht : ' ' ∉ t) (hl : lookup t clients = none) :
    handle_dm sender (t ++ str " " ++ m) sock clients dead =
      [(sock, str "ERR user-not-found\n")] := by
  rw [handle_dm, pySplit1_target t m ht]
  simp [hl]

theorem keysNodup_broadcast_fst (clients : Registry) (dead : List Nat)
    (msg : Str) (excl : Option Str) (hk : keysNodup clients) :
    keysNodup (broadcast clients dead msg excl).1 := by
  simp only [broadcast, delKeys]
  exact keysNodup_filter _ _ hk

theorem keysNodup_insert (clients : Registry) (u : Str) (sock : Nat)
    (hk : keysNodup clients) (hl : lookup u clients = none) :
    keysNodup (clients ++ [(u, sock)]) := by
  have hu : u ∉ keys clients := (lookup_eq_none_iff u clients).mp hl
  simp only [keysNodup, keys, List.map_append] at hk ⊢
  rw [List.nodup_append]
  refine ⟨hk, by simp, ?_⟩
  intro a ha hb
  simp only [List.map_cons, List.map_nil, List.mem_singleton] at hb
  subst hb
  exact hu ha

theorem keysNodup_processCommand (clients : Registry) (dead : List Nat)
    (sock : Nat) (username : Option Str) (command : Str)
    (hk : keysNodup clients) :
    keysNodup (processCommand clients dead sock username command).1 := by
  rcases username with _ | u <;> simp only [processCommand]
  · split
    · split
      · exact hk
      · split
        · exact hk
        · split
          · exact hk
          · exact keysNodup_insert _ _ _ hk (by assumption)
    · exact hk
  · split
    · split
      · exact hk
      · exact keysNodup_broadcast_fst _ _ _ _ hk
    · split
      · exact hk
      · split
        · exact hk
        · split
          · exact hk
          · exact hk

theorem keysNodup_teardown (username : Option Str) (clients : Registry)
    (dead : List Nat) (hk : keysNodup clients) :
    keysNodup (teardown username clients dead).1 := by
  rcases username with _ | u
  · exact hk
  · simp only [teardown, disconnect_user]
    exact keysNodup_broadcast_fst _ _ _ _ (keysNodup_filter _ _ hk)
theorem pySplit1_some_of_mem (sep : Char) (s : Str) (h : sep ∈ s) :
    ∃ t m, pySplit1 sep s = (t, some m) := by
  induction s with
  | nil => cases h
  | cons c rest ih =>
    by_cases hc : c = sep
    · exact ⟨[], rest, by simp [pySplit1, hc]⟩
    · rcases List.mem_cons.mp h with h | h
      · exact absurd h.symm hc
      · obtain ⟨t, m, hm⟩ := ih h
        exact ⟨c :: t, m, by simp [pySplit1, Ne.symm hc, hc, hm]⟩

/-- C1 (amended): the DM usage error `ERR usage: DM <username> <message>` is
sent to the sender exactly when the argument contains no space at all (fewer
than two parts); when a space is present the handler never emits the usage
error but proceeds to the registry lookup, even when the target before the
first space is empty. -/
theorem C1_dm_usage_iff_no_space (sender args : Str) (sock : Nat)
    (clients : Registry) (dead : List Nat) (hsock : sock ∉ dead) :
    (' ' ∉ args →
      handle_dm sender args sock clients dead =
        [(sock, str "ERR usage: DM <username> <message>\n")]) ∧
    (' ' ∈ args →
      ∀ p ∈ handle_dm sender args sock clients dead,
        p.2 ≠ str "ERR usage: DM <username> <message>\n") := by
  constructor
  · intro h
    exact dm_usage sender args sock clients dead h
  · intro h p hp
    obtain ⟨t, m, hm⟩ := pySplit1_some_of_mem ' ' args h
    rcases hl : lookup t clients with _ | ts
    · simp only [handle_dm, hm, hl, List.mem_singleton] at hp
      subst hp
      show str "ERR user-not-found\n" ≠ str "ERR usage: DM <username> <message>\n"
      decide
    · by_cases hd : ts ∈ dead
      · simp [handle_dm, hm, hl, hd] at hp
      · simp only [handle_dm, hm, hl, hd, if_false, List.mem_singleton] at hp
        subst hp
        intro he
        have h2 : ('D' : Char) :: ('M' :: ' ' :: (sender ++ str " " ++ m ++ str "\n")) =
            'E' :: str "RR usage: DM <username> <message>\n" := he
        simp at h2
/-- C1 (counterexample): the DM command `DM  alice hi` from authenticated
`bob` has argument ` alice hi`, which splits with an empty target before the
first space; the claim demands the usage error and no lookup, but the server
performs the lookup and replies `ERR user-not-found`. -/
theorem C1_counterexample :
    (pySplit1 ' ' (pyStrip (str "DM  alice hi"))).2 = some (str " alice hi") ∧
    (pySplit1 ' ' (str " alice hi")).1 = [] ∧
    processLine [(str "alice", 1)] [] 0 (some (str "bob")) (str "DM  alice hi") =
      ([(str "alice", 1)], some (str "bob"), [(0, str "ERR user-not-found\n")]) := by
  decide

/-- C1 (witness): concrete instances of both conjuncts of the amended
theorem. -/
theorem C1_witness :
    handle_dm (str "bob") (str "alicehi") 0 [] [] =
      [(0, str "ERR usage: DM <username> <message>\n")] ∧
    ∀ p ∈ handle_dm (str "bob") (str "alice hi") 0 [(str "alice", 1)] [],
      p.2 ≠ str "ERR usage: DM <username> <message>\n" :=
  ⟨(C1_dm_usage_iff_no_space (str "bob") (str "alicehi") 0 [] [] (by decide)).1
      (by decide),
   (C1_dm_usage_iff_no_space (str "bob") (str "alice hi") 0 [(str "alice", 1)] []
      (by decide)).2 (by decide)⟩

/-- C2 (amended): when every received chunk individually decodes as UTF-8,
the framer's output lines and retained buffer depend only on the
concatenation of the decoded texts, so chunk boundaries that do not make a
chunk undecodable cannot affect the command-line sequence; a chunk that
fails to decode is silently discarded in its entirety (it contributes no
text), without terminating the connection. -/
theorem C2_framer_depends_only_on_decoded_text (buffer : Str)
    (chunks : List (List Nat)) (hbuf : '\n' ∉ buffer)
    (h : ∀ d ∈ chunks, (decodeUtf8 d).isSome) :
    feedChunks buffer chunks =
      ((extractLines (buffer ++ (chunks.map fun d => (decodeUtf8 d).getD []).flatten)).2,
       (extractLines (buffer ++ (chunks.map fun d => (decodeUtf8 d).getD []).flatten)).1) := by
  induction chunks generalizing buffer with
  | nil =>
    simp [feedChunks, extractLines_eq_self buffer hbuf]
  | cons d rest ih =>
    obtain ⟨t, hd⟩ := Option.isSome_iff_exists.mp (h d (List.mem_cons_self d rest))
    have hrest : ∀ d ∈ rest, (decodeUtf8 d).isSome :=
      fun d hdm => h d (List.mem_cons_of_mem _ hdm)
    have ihb := ih (extractLines (buffer ++ t)).2 (extractLines_snd_no_newline _) hrest
    simp only [feedChunks, recvChunk, hd, List.map_cons, List.flatten_cons,
      Option.getD_some, ihb]
    rw [← List.append_assoc,
      extractLines_append (buffer ++ t)
        ((rest.map fun d => (decodeUtf8 d).getD []).flatten)]

/-- C2 (counterexample): the valid UTF-8 stream `0xC3 0xA9 0x0A` (the line
`\u00e9` plus newline) yields one line when received as a single chunk, but a
chunk boundary inside the two-byte character makes both chunks undecodable
and the whole line is lost, so the line sequence is not independent of the
chunking. -/
theorem C2_counterexample :
    decodeUtf8 [0xC3, 0xA9, 0x0A] = some [Char.ofNat 0xE9, '\n'] ∧
    (feedChunks [] [[0xC3, 0xA9, 0x0A]]).2 = [[Char.ofNat 0xE9]] ∧
    (feedChunks [] [[0xC3], [0xA9, 0x0A]]).2 = [] := by decide

/-- C2 (witness): a concrete three-chunk run whose boundaries fall between
characters, evaluated through the amended theorem. -/
theorem C2_witness :
    feedChunks [] [[72, 105], [10, 66], [121, 101, 10]] =
      ([], [str "Hi", str "Bye"]) :=
  (C2_framer_depends_only_on_decoded_text [] [[72, 105], [10, 66], [121, 101, 10]]
      (by decide) (by decide)).trans (by decide)
/-- C3 (counterexample): the line `LOGIN  alice` (two spaces) has argument
` alice`, which contains a space, yet the server strips it, registers
`alice` and replies `OK`, mutating the registry. -/
theorem C3_counterexample :
    (pySplit1 ' ' (pyStrip (str "LOGIN  alice"))).2 = some (str " alice") ∧
    ' ' ∈ str " alice" ∧
    processLine [] [] 0 none (str "LOGIN  alice") =
      ([(str "alice", 0)], some (str "alice"), [(0, str "OK\n")]) := by decide

/-- C3 (amended): a LOGIN in the unauthenticated state whose argument is
empty, or whose argument strips to an empty name, or whose stripped name
still contains a space, is answered `ERR invalid-username` and leaves the
registry unchanged.  (Leading/trailing whitespace around an otherwise valid
name is stripped and the login succeeds, contrary to the claim as stated.) -/
theorem C3_login_invalid_trimmed (clients : Registry) (dead : List Nat)
    (sock : Nat) (arg : Str) (hsock : sock ∉ dead)
    (h : arg = [] ∨ pyStrip arg = [] ∨ (pyStrip arg).contains ' ' = true) :
    processCommand clients dead sock none (str "LOGIN " ++ arg) =
      (clients, none, [(sock, str "ERR invalid-username\n")]) :=
  login_invalid clients dead sock arg h

/-- C3 (witness): `LOGIN a b` is rejected with no registry change. -/
theorem C3_witness :
    processCommand [] [] 0 none (str "LOGIN a b") =
      ([], none, [(0, str "ERR invalid-username\n")]) :=
  C3_login_invalid_trimmed [] [] 0 (str "a b") (by decide)
    (Or.inr (Or.inr (by decide)))

/-- C4: registry keys stay unique under every operation — command dispatch
(LOGIN insertion, broadcast eviction) and disconnect teardown — and a LOGIN
for a name already registered is answered `ERR username-taken` with the
registry and the requester state unchanged. -/
theorem C4_registry_unique (clients : Registry) (dead : List Nat) (sock : Nat)
    (username : Option Str) (command arg u : Str) (s : Nat) :
    (keysNodup clients → keysNodup (processCommand clients dead sock username command).1) ∧
    (keysNodup clients → keysNodup (teardown username clients dead).1) ∧
    (keysNodup clients → arg ≠ [] → pyStrip arg = u → u.contains ' ' = false →
      u ≠ [] → lookup u clients = some s → sock ∉ dead →
      processCommand clients dead sock none (str "LOGIN " ++ arg) =
        (clients, none, [(sock, str "ERR username-taken\n")])) :=
  ⟨keysNodup_processCommand clients dead sock username command,
   keysNodup_teardown username clients dead,
   fun _ h1 hstrip h2 h3 hl _ =>
     login_taken clients dead sock arg u s h1 hstrip h2 h3 hl⟩

/-- C4 (witness): concrete instances of all three conjuncts. -/
theorem C4_witness :
    keysNodup ([] : Registry) ∧
    keysNodup (processCommand [] [] 0 none (str "LOGIN alice")).1 ∧
    keysNodup (teardown (some (str "alice")) [(str "alice", 0)] []).1 ∧
    processCommand [(str "alice", 1)] [] 0 none (str "LOGIN alice") =
      ([(str "alice", 1)], none, [(0, str "ERR username-taken\n")]) := by
  refine ⟨by simp [keysNodup, keys], ?_, ?_, ?_⟩
  · exact (C4_registry_unique [] [] 0 none (str "LOGIN alice") [] [] 0).1
      (by simp [keysNodup, keys])
  · exact (C4_registry_unique [(str "alice", 0)] [] 0 (some (str "alice"))
      [] [] [] 0).2.1 (by simp [keysNodup, keys])
  · exact (C4_registry_unique [(str "alice", 1)] [] 0 none []
      (str "alice") (str "alice") 1).2.2 (by simp [keysNodup, keys])
      (by decide) (by decide) (by decide) (by decide) (by decide) (by decide)
theorem broadcast_eq_some (l : Registry) (dead : List Nat) (msg : Str)
    (u : Str) (hk : keysNodup l) :
    broadcast l dead msg (some u) =
      (l.filter fun e => !(decide (e.1 ≠ u) && decide (e.2 ∈ dead)),
       (l.filter fun e => decide (e.1 ≠ u) && decide (e.2 ∉ dead)).map
         fun e => (e.2, msg ++ str "\n")) := by
  rw [broadcast_eq l dead msg (some u) hk]
  congr 1
  · apply List.filter_congr
    intro e _
    simp
  · congr 1
    apply List.filter_congr
    intro e _
    simp

/-- C5: an authenticated `MSG` with non-empty argument broadcasts exactly
one newline-terminated line `MSG <user> <argument>` to every other
registered session whose sink accepts the write (each such entry contributes
exactly one send, in registry order), never to the sender's own socket; an
empty argument is silently ignored, with no response, no broadcast and no
state change. -/
theorem C5_msg_broadcast (clients : Registry) (dead : List Nat) (sock : Nat)
    (u arg : Str) (hk : keysNodup clients) (hmem : (u, sock) ∈ clients)
    (hsinks : sinksNodup clients) :
    (arg ≠ [] →
      processCommand clients dead sock (some u) (str "MSG " ++ arg) =
        (clients.filter fun e => !(decide (e.1 ≠ u) && decide (e.2 ∈ dead)),
         some u,
         (clients.filter fun e => decide (e.1 ≠ u) && decide (e.2 ∉ dead)).map
           fun e => (e.2, str "MSG " ++ u ++ str " " ++ arg ++ str "\n"))) ∧
    (arg ≠ [] →
      ∀ p ∈ (processCommand clients dead sock (some u) (str "MSG " ++ arg)).2.2,
        p.1 ≠ sock) ∧
    processCommand clients dead sock (some u) (str "MSG") =
      (clients, some u, []) := by
  have hpart1 : arg ≠ [] →
      processCommand clients dead sock (some u) (str "MSG " ++ arg) =
        (clients.filter fun e => !(decide (e.1 ≠ u) && decide (e.2 ∈ dead)),
         some u,
         (clients.filter fun e => decide (e.1 ≠ u) && decide (e.2 ∉ dead)).map
           fun e => (e.2, str "MSG " ++ u ++ str " " ++ arg ++ str "\n")) := by
    intro h
    rw [msg_dispatch clients dead sock u arg h,
      broadcast_eq_some clients dead _ u hk]
  refine ⟨hpart1, ?_, msg_empty clients dead sock u⟩
  intro h p hp
  rw [hpart1 h] at hp
  simp only [List.mem_map, List.mem_filter, Bool.and_eq_true,
    decide_eq_true_eq] at hp
  obtain ⟨e, ⟨he, hne, _⟩, rfl⟩ := hp
  intro heq
  have hee : e = (u, sock) := List.inj_on_of_nodup_map hsinks he hmem heq
  exact hne (by rw [hee])

/-- C5 (witness): `bob` broadcasting `hi` to `alice` and getting no echo,
and an empty `MSG` being ignored. -/
theorem C5_witness :
    processCommand [(str "alice", 1), (str "bob", 0)] [] 0 (some (str "bob"))
        (str "MSG hi") =
      ([(str "alice", 1), (str "bob", 0)], some (str "bob"),
       [(1, str "MSG bob hi\n")]) ∧
    (∀ p ∈ (processCommand [(str "alice", 1), (str "bob", 0)] [] 0
        (some (str "bob")) (str "MSG hi")).2.2, p.1 ≠ 0) ∧
    processCommand [(str "alice", 1), (str "bob", 0)] [] 0 (some (str "bob"))
        (str "MSG") = ([(str "alice", 1), (str "bob", 0)], some (str "bob"), []) := by
  have h := C5_msg_broadcast [(str "alice", 1), (str "bob", 0)] [] 0
    (str "bob") (str "hi") (by simp [keysNodup, keys] <;> decide) (by decide)
    (by simp [sinksNodup] <;> decide)
  exact ⟨(h.1 (by decide)).trans (by decide), h.2.1 (by decide), h.2.2⟩

/-- C6: in a broadcast, the registry entries removed are exactly the
non-excluded ones whose send failed (computed over the original table, i.e.
removal happens after the iteration, never mid-iteration); every live
non-excluded session still receives the message regardless of its position
relative to failed recipients; and every emitted line is a copy of the
broadcast message, so no `INFO <name> disconnected` is sent for the evicted
sessions. -/
theorem C6_broadcast_failure_policy (clients : Registry) (dead : List Nat)
    (msg : Str) (excl : Option Str) (hk : keysNodup clients) :
    (broadcast clients dead msg excl).1 =
      clients.filter (fun e => !(decide (some e.1 ≠ excl) && decide (e.2 ∈ dead))) ∧
    (broadcast clients dead msg excl).2 =
      (clients.filter fun e => decide (some e.1 ≠ excl) && decide (e.2 ∉ dead)).map
        (fun e => (e.2, msg ++ str "\n")) ∧
    (∀ e ∈ clients, some e.1 ≠ excl → e.2 ∉ dead →
      (e.2, msg ++ str "\n") ∈ (broadcast clients dead msg excl).2) ∧
    (∀ p ∈ (broadcast clients dead msg excl).2, p.2 = msg ++ str "\n") := by
  rw [broadcast_eq clients dead msg excl hk]
  refine ⟨rfl, rfl, ?_, ?_⟩
  · intro e he hx hd
    simp only [List.mem_map, List.mem_filter]
    exact ⟨e, by simp [he, hx, hd], rfl⟩
  · intro p hp
    simp only [List.mem_map] at hp
    obtain ⟨e, _, rfl⟩ := hp
    rfl

/-- C6 (witness): `bob`'s dead sink is evicted while `carol` (iterated
after the failure) still receives the line. -/
theorem C6_witness :
    (broadcast [(str "alice", 1), (str "bob", 2), (str "carol", 3)] [2]
        (str "MSG alice hi") (some (str "alice"))).1 =
      [(str "alice", 1), (str "carol", 3)] ∧
    (broadcast [(str "alice", 1), (str "bob", 2), (str "carol", 3)] [2]
        (str "MSG alice hi") (some (str "alice"))).2 =
      [(3, str "MSG alice hi\n")] ∧
    (3, str "MSG alice hi\n") ∈
      (broadcast [(str "alice", 1), (str "bob", 2), (str "carol", 3)] [2]
        (str "MSG alice hi") (some (str "alice"))).2 := by
  have h := C6_broadcast_failure_policy
    [(str "alice", 1), (str "bob", 2), (str "carol", 3)] [2]
    (str "MSG alice hi") (some (str "alice"))
    (by simp [keysNodup, keys] <;> decide)
  exact ⟨h.1.trans (by decide), h.2.1.trans (by decide),
    h.2.2.1 (str "carol", 3) (by decide) (by decide) (by decide)⟩
theorem teardown_some_eq (clients : Registry) (dead : List Nat) (u : Str)
    (hk : keysNodup clients) :
    teardown (some u) clients dead =
      (clients.filter fun e => decide (e.1 ≠ u) && decide (e.2 ∉ dead),
       (clients.filter fun e => decide (e.1 ≠ u) && decide (e.2 ∉ dead)).map
         fun e => (e.2, str "INFO " ++ u ++ str " disconnected\n")) := by
  have h2 : str " disconnected" ++ str "\n" = str " disconnected\n" := by decide
  have hmsg : str "INFO " ++ u ++ str " disconnected" ++ str "\n" =
      str "INFO " ++ u ++ str " disconnected\n" := by
    rw [List.append_assoc (str "INFO " ++ u), h2]
  simp only [teardown, disconnect_user]
  rw [broadcast_eq _ dead _ none (keysNodup_filter _ _ hk)]
  simp only [List.filter_filter]
  rw [hmsg]
  congr 1
  · apply List.filter_congr
    intro e _
    simp [Bool.and_comm]
  · congr 1
    apply List.filter_congr
    intro e _
    simp [Bool.and_comm]

/-- C7: teardown of an authenticated connection removes the username from
the registry, sends `INFO <username> disconnected` to exactly the remaining
registered sessions whose sinks accept the write (the departed entry is
removed before the broadcast, so it receives nothing), and afterwards a
fresh LOGIN with the same (valid) username succeeds with `OK`; teardown of a
connection that never authenticated changes nothing and sends nothing.  The
unconditional best-effort socket close is transport-level I/O outside this
embedding. -/
theorem C7_disconnect_cleanup (clients : Registry) (dead : List Nat)
    (u : Str) (sock2 : Nat) (hk : keysNodup clients)
    (hstrip : pyStrip u = u) (hsp : u.contains ' ' = false) (hne : u ≠ []) :
    lookup u (teardown (some u) clients dead).1 = none ∧
    (teardown (some u) clients dead).2 =
      ((clients.filter fun e => decide (e.1 ≠ u) && decide (e.2 ∉ dead)).map
        fun e => (e.2, str "INFO " ++ u ++ str " disconnected\n")) ∧
    processCommand (teardown (some u) clients dead).1 dead sock2 none
        (str "LOGIN " ++ u) =
      ((teardown (some u) clients dead).1 ++ [(u, sock2)], some u,
       [(sock2, str "OK\n")]) ∧
    teardown none clients dead = (clients, []) := by
  have hnone : lookup u (teardown (some u) clients dead).1 = none := by
    rw [teardown_some_eq clients dead u hk]
    apply lookup_eq_none_of_all_ne
    intro e he
    have := List.of_mem_filter he
    simp only [Bool.and_eq_true, decide_eq_true_eq] at this
    exact this.1
  refine ⟨hnone, ?_, ?_, rfl⟩
  · rw [teardown_some_eq clients dead u hk]
  · exact login_ok _ dead sock2 u u hne hstrip hsp hne hnone

/-- C7 (witness): `alice` disconnecting, `bob` being notified, and `alice`
logging back in on a fresh socket. -/
theorem C7_witness :
    lookup (str "alice") (teardown (some (str "alice"))
      [(str "alice", 1), (str "bob", 2)] []).1 = none ∧
    (teardown (some (str "alice")) [(str "alice", 1), (str "bob", 2)] []).2 =
      [(2, str "INFO alice disconnected\n")] ∧
    processCommand (teardown (some (str "alice"))
        [(str "alice", 1), (str "bob", 2)] []).1 [] 3 none
        (str "LOGIN alice") =
      ((teardown (some (str "alice")) [(str "alice", 1), (str "bob", 2)] []).1
        ++ [(str "alice", 3)], some (str "alice"), [(3, str "OK\n")]) ∧
    teardown none [(str "alice", 1), (str "bob", 2)] [] =
      ([(str "alice", 1), (str "bob", 2)], []) := by
  have h := C7_disconnect_cleanup [(str "alice", 1), (str "bob", 2)] []
    (str "alice") 3 (by simp [keysNodup, keys] <;> decide) (by decide)
    (by decide) (by decide)
  exact ⟨h.1, h.2.1.trans (by decide), h.2.2.1, h.2.2.2⟩
/-- C8: a well-formed DM (`DM <target> <message>`, target space-free) from
an authenticated sender sends exactly the line `DM <sender> <message>` to
the registered target's sink only — nothing to the sender, no broadcast —
when the target is present and its sink accepts the write; when the target
is absent the sender gets `ERR user-not-found` and nothing else is emitted;
in both cases the registry and the connection state are unchanged. -/
theorem C8_dm_routing (clients : Registry) (dead : List Nat) (sock : Nat)
    (u t m : Str) (ts : Nat) (ht : ' ' ∉ t) (hsock : sock ∉ dead) :
    (lookup t clients = some ts → ts ∉ dead →
      processCommand clients dead sock (some u) (str "DM " ++ (t ++ str " " ++ m)) =
        (clients, some u, [(ts, str "DM " ++ u ++ str " " ++ m ++ str "\n")])) ∧
    (lookup t clients = none →
      processCommand clients dead sock (some u) (str "DM " ++ (t ++ str " " ++ m)) =
        (clients, some u, [(sock, str "ERR user-not-found\n")])) := by
  constructor
  · intro hl hd
    rw [dm_dispatch clients dead sock u (t ++ str " " ++ m),
      dm_found u t m sock ts clients dead ht hl hd]
  · intro hl
    rw [dm_dispatch clients dead sock u (t ++ str " " ++ m),
      dm_not_found u t m sock clients dead ht hl]

/-- C8 (witness): the spec's round trip — `bob` DMs `alice`, and a DM to
`ghost` fails. -/
theorem C8_witness :
    processCommand [(str "alice", 1), (str "bob", 0)] [] 0 (some (str "bob"))
        (str "DM " ++ (str "alice" ++ str " " ++ str "secret")) =
      ([(str "alice", 1), (str "bob", 0)], some (str "bob"),
       [(1, str "DM bob secret\n")]) ∧
    processCommand [(str "alice", 1), (str "bob", 0)] [] 0 (some (str "bob"))
        (str "DM " ++ (str "ghost" ++ str " " ++ str "hi")) =
      ([(str "alice", 1), (str "bob", 0)], some (str "bob"),
       [(0, str "ERR user-not-found\n")]) :=
  ⟨((C8_dm_routing [(str "alice", 1), (str "bob", 0)] [] 0 (str "bob")
      (str "alice") (str "secret") 1 (by decide) (by decide)).1 (by decide)
      (by decide)).trans (by decide),
   ((C8_dm_routing [(str "alice", 1), (str "bob", 0)] [] 0 (str "bob")
      (str "ghost") (str "hi") 1 (by decide) (by decide)).2 (by decide)).trans
      (by decide)⟩

/-- C9: when the DM target is registered but its sink rejects the write, the
failure is swallowed: nothing is emitted (in particular no response to the
sender), and the registry is unchanged — the target stays registered, unlike
a failed broadcast recipient. -/
theorem C9_dm_dead_target (clients : Registry) (dead : List Nat) (sock : Nat)
    (u t m : Str) (ts : Nat) (ht : ' ' ∉ t) (hl : lookup t clients = some ts)
    (hd : ts ∈ dead) :
    processCommand clients dead sock (some u) (str "DM " ++ (t ++ str " " ++ m)) =
      (clients, some u, []) ∧
    lookup t (processCommand clients dead sock (some u)
      (str "DM " ++ (t ++ str " " ++ m))).1 = some ts := by
  have heq : processCommand clients dead sock (some u)
      (str "DM " ++ (t ++ str " " ++ m)) = (clients, some u, []) := by
    rw [dm_dispatch clients dead sock u (t ++ str " " ++ m),
      dm_found_dead u t m sock ts clients dead ht hl hd]
  exact ⟨heq, by rw [heq]; exact hl⟩

/-- C9 (witness): a DM to `alice` whose socket is dead emits nothing and
leaves `alice` registered. -/
theorem C9_witness :
    processCommand [(str "alice", 1), (str "bob", 0)] [1] 0 (some (str "bob"))
        (str "DM " ++ (str "alice" ++ str " " ++ str "hi")) =
      ([(str "alice", 1), (str "bob", 0)], some (str "bob"), []) ∧
    lookup (str "alice") (processCommand [(str "alice", 1), (str "bob", 0)]
      [1] 0 (some (str "bob"))
      (str "DM " ++ (str "alice" ++ str " " ++ str "hi"))).1 = some 1 :=
  C9_dm_dead_target [(str "alice", 1), (str "bob", 0)] [1] 0 (str "bob")
    (str "alice") (str "hi") 1 (by decide) (by decide) (by decide)
theorem validKeys_filter (p : Str × Nat → Bool) (l : Registry)
    (hv : validKeys l) : validKeys (l.filter p) :=
  fun e he => hv e (List.mem_of_mem_filter he)

theorem validKeys_broadcast_fst (clients : Registry) (dead : List Nat)
    (msg : Str) (excl : Option Str) (hv : validKeys clients) :
    validKeys (broadcast clients dead msg excl).1 := by
  simp only [broadcast, delKeys]
  exact validKeys_filter _ _ hv

theorem validKeys_insert (clients : Registry) (u : Str) (sock : Nat)
    (hv : validKeys clients) (hu : u.contains ' ' = false) :
    validKeys (clients ++ [(u, sock)]) := by
  intro e he
  rcases List.mem_append.mp he with h | h
  · exact hv e h
  · simp only [List.mem_singleton] at h
    subst h
    exact hu

theorem validKeys_processCommand (clients : Registry) (dead : List Nat)
    (sock : Nat) (username : Option Str) (command : Str)
    (hv : validKeys clients) :
    validKeys (processCommand clients dead sock username command).1 := by
  rcases username with _ | u <;> simp only [processCommand]
  · split
    · split
      · exact hv
      · split
        · exact hv
        · split
          · exact hv
          · rename_i hcond _ _
            refine validKeys_insert _ _ _ hv ?_
            simp only [not_or] at hcond
            simpa using hcond.1
    · exact hv
  · split
    · split
      · exact hv
      · exact validKeys_broadcast_fst _ _ _ _ hv
    · split
      · exact hv
      · split
        · exact hv
        · split
          · exact hv
          · exact hv

theorem validKeys_teardown (username : Option Str) (clients : Registry)
    (dead : List Nat) (hv : validKeys clients) :
    validKeys (teardown username clients dead).1 := by
  rcases username with _ | u
  · exact hv
  · simp only [teardown, disconnect_user]
    exact validKeys_broadcast_fst _ _ _ _ (validKeys_filter _ _ hv)

/-- C10 (counterexample): the name `a, b` — trimmed non-empty, containing
the infix `, ` — is rejected by LOGIN with `ERR invalid-username` (it
contains a space), so no registered name can contain `, ` and the claimed
WHO ambiguity cannot arise. -/
theorem C10_counterexample :
    pyStrip (str "a, b") = str "a, b" ∧
    str "a, b" ≠ [] ∧
    (str ", ") <:+: (str "a, b") ∧
    processLine [] [] 0 none (str "LOGIN a, b") =
      ([], none, [(0, str "ERR invalid-username\n")]) :=
  ⟨by decide, by decide, ⟨['a'], ['b'], by decide⟩, by decide⟩

/-- C10 (amended): username validation rejects only the ASCII space (and
emptiness): every LOGIN whose trimmed argument is non-empty and space-free
registers when the name is not taken, including names with tabs, commas or
other control characters; but every registered name is space-free under all
operations, and since `", "` contains a space no registered name can
contain it, so the comma-space-joined WHO list cannot be made ambiguous by
a registered name containing `", "`. -/
theorem C10_validation_space_only (clients : Registry) (dead : List Nat)
    (sock : Nat) (username : Option Str) (command arg : Str)
    (hsock : sock ∉ dead) :
    (pyStrip arg ≠ [] → (pyStrip arg).contains ' ' = false →
      lookup (pyStrip arg) clients = none →
      processCommand clients dead sock none (str "LOGIN " ++ arg) =
        (clients ++ [(pyStrip arg, sock)], some (pyStrip arg),
         [(sock, str "OK\n")])) ∧
    (validKeys clients →
      validKeys (processCommand clients dead sock username command).1) ∧
    (validKeys clients → validKeys (teardown username clients dead).1) ∧
    (validKeys clients → ∀ e ∈ clients, ¬ (str ", " <:+: e.1)) := by
  refine ⟨?_, validKeys_processCommand clients dead sock username command,
    validKeys_teardown username clients dead, ?_⟩
  · intro h1 h2 hl
    have harg : arg ≠ [] := by
      intro he
      subst he
      exact h1 rfl
    exact login_ok clients dead sock arg (pyStrip arg) harg rfl h2 h1 hl
  · intro hv e he hinf
    obtain ⟨s, t, hst⟩ := hinf
    have h1 : ' ' ∈ str ", " := by decide
    have hsp : ' ' ∈ e.1 := by
      rw [← hst]
      simp [h1]
    have hc : ' ' ∉ e.1 := by simpa using hv e he
    exact hc hsp

/-- C10 (witness): the name `a,<tab>b` (comma and tab) registers, and no
registered name contains `, `. -/
theorem C10_witness :
    processCommand [] [] 0 none (str "LOGIN " ++ str "a,\tb") =
      ([(str "a,\tb", 0)], some (str "a,\tb"), [(0, str "OK\n")]) ∧
    validKeys (teardown (some (str "x")) [(str "x", 0)] []).1 ∧
    (∀ e ∈ [(str "a,\tb", 0)], ¬ (str ", " <:+: e.1)) := by
  have h := C10_validation_space_only [] [] 0 none [] (str "a,\tb") (by decide)
  have h2 := C10_validation_space_only [(str "x", 0)] [] 0 (some (str "x"))
    [] [] (by decide)
  have h3 := C10_validation_space_only [(str "a,\tb", 0)] [] 0 none [] []
    (by decide)
  have hh : processCommand [] [] 0 none (str "LOGIN " ++ str "a,\tb") =
      ([(str "a,\tb", 0)], some (str "a,\tb"), [(0, str "OK\n")]) :=
    (h.1 (by decide) (by decide) (by decide)).trans (by decide)
  have hv1 : validKeys [(str "x", 0)] := by
    intro e he
    simp only [List.mem_singleton] at he
    subst he
    decide
  have hv3 : validKeys [(str "a,\tb", 0)] := by
    intro e he
    simp only [List.mem_singleton] at he
    subst he
    decide
  exact ⟨hh, h2.2.2.1 hv1, h3.2.2.2 hv3⟩
end ChatServer
